import Mathlib

/-!
Verification development for the government-service web scraper (`app.py`).

The document model is a shallow embedding of the parsed markup tree that
BeautifulSoup hands to `extract_section_content` and `scrape_urls`:
an element node carries its tag name, its (multi-valued) `class` attribute,
its other attributes, and its children; a text node carries its string.
All extraction functions below are transcribed from the Python source.
-/

namespace Scraper

/-- A node of the parsed document tree (BeautifulSoup `Tag` / `NavigableString`). -/
inductive Node where
  | elem (tag : String) (classes : List String) (attrs : List (String × String)) (children : List Node)
  | text (s : String)
deriving Repr

def Node.tagOf : Node → String
  | .elem t _ _ _ => t
  | .text _ => ""

def Node.classesOf : Node → List String
  | .elem _ c _ _ => c
  | .text _ => []

def Node.childrenOf : Node → List Node
  | .elem _ _ _ ch => ch
  | .text _ => []

def Node.isElem : Node → Bool
  | .elem _ _ _ _ => true
  | .text _ => false

/-- Attribute lookup with a default, modelling `tag.get(name, default)`. -/
def Node.attrOf (n : Node) (k : String) : Option String :=
  match n with
  | .elem _ _ attrs _ => (attrs.find? (fun p => p.1 == k)).map Prod.snd
  | .text _ => none

mutual
/-- The node itself (when it is an element) followed by its element
descendants, in document (pre-)order. -/
def elemsSelf : Node → List Node
  | .text _ => []
  | .elem t c a ch => .elem t c a ch :: elemsUnderL ch
termination_by structural n => n
/-- All elements among the nodes of the list and below them, in document
(pre-)order. Models the iteration order of BeautifulSoup `find_all`. -/
def elemsUnderL : List Node → List Node
  | [] => []
  | n :: rest => elemsSelf n ++ elemsUnderL rest
termination_by structural l => l
end

/-- All element descendants of a node (the node itself excluded), document order. -/
def elemsUnder (n : Node) : List Node := elemsUnderL n.childrenOf

mutual
/-- The text strings of a node: its own string for a text node, its text
descendants for an element. -/
def textsSelf : Node → List String
  | .text s => [s]
  | .elem _ _ _ ch => textsUnderL ch
termination_by structural n => n
/-- All text-node strings below the nodes in the list, in document order. -/
def textsUnderL : List Node → List String
  | [] => []
  | n :: rest => textsSelf n ++ textsUnderL rest
termination_by structural l => l
end

/-- Whitespace characters stripped by Python `str.strip()` (ASCII range). -/
def pyWs (c : Char) : Bool :=
  c == ' ' || c == '\t' || c == '\n' || c == '\r' || c == Char.ofNat 11 || c == Char.ofNat 12

/-- Models Python `str.strip()`. -/
def pyStrip (s : String) : String :=
  ⟨((s.data.dropWhile pyWs).reverse.dropWhile pyWs).reverse⟩

/-- Models Python `str.lower()` over the ASCII range the pages use. -/
def pyLower (s : String) : String := ⟨s.data.map Char.toLower⟩

/-- Concatenation of a list of strings (separator-free join). -/
def strConcat (l : List String) : String := ⟨(l.map String.data).flatten⟩

/-- Models `tag.get_text(strip=True)`: concatenation of the stripped text descendants,
whitespace-only fragments skipped. -/
def getText (n : Node) : String :=
  match n with
  | .text s => pyStrip s
  | .elem _ _ _ ch => strConcat (((textsUnderL ch).map pyStrip).filter (fun s => s ≠ ""))

/-- Does `nd` occur as a contiguous sublist of the second list? -/
def infixL (nd : List Char) : List Char → Bool
  | [] => nd.isEmpty
  | c :: rest => nd.isPrefixOf (c :: rest) || infixL nd rest

/-- Boolean substring test (`needle in hay` on Python strings). -/
def substr (needle hay : String) : Bool := infixL needle.data hay.data

/-- Models `re.compile(r'a|b|c').search(s)` for alternations of plain literals:
some alternative occurs as a substring (case-sensitive, as in the source,
which compiles the class patterns without `re.IGNORECASE`). -/
def altSearch (alts : List String) (s : String) : Bool :=
  alts.any (fun a => substr a s)

/-- BeautifulSoup class matching for `class_=re.compile(...)`: the pattern is
tried against each individual class of the element. -/
def classAnyMatch (n : Node) (alts : List String) : Bool :=
  n.classesOf.any (fun c => altSearch alts c)

/-! ### A small regex interpreter

The source compiles the catalog names and the eligibility / fee search
strings with `re.compile(pattern, re.IGNORECASE)` and uses `.search`.
The patterns that actually occur use only literal characters, the optional
quantifier `?`, and top-level alternation `|`, so the interpreter below
covers exactly those constructs: a pattern is split into `|`-branches, each
branch into atoms (a character, optionally followed by `?`), and `search`
succeeds when some branch matches at some start position. -/

/-- An atom is a character plus an optional flag; a trailing `?` in the
pattern makes the preceding character optional. -/
def reAtoms : List Char → List (Char × Bool)
  | [] => []
  | c :: '?' :: rest => (c, true) :: reAtoms rest
  | c :: rest => (c, false) :: reAtoms rest

/-- Case-insensitive character comparison (`re.IGNORECASE`). -/
def charEqCI (a b : Char) : Bool := a.toLower == b.toLower

/-- Match a branch's atom list against a prefix of the input. -/
def reMatchAtoms : List (Char × Bool) → List Char → Bool
  | [], _ => true
  | (_, opt) :: as, [] => opt && reMatchAtoms as []
  | (c, opt) :: as, x :: xs =>
      (charEqCI c x && reMatchAtoms as xs) || (opt && reMatchAtoms as (x :: xs))

/-- Splitting a character list on a separator character (Python
`str.split(sep)` with a one-character separator). -/
def splitOnCharL (c : Char) : List Char → List (List Char)
  | [] => [[]]
  | x :: xs =>
    match splitOnCharL c xs with
    | [] => if x == c then [[], []] else [[x]]
    | h :: t => if x == c then [] :: h :: t else (x :: h) :: t

/-- String version of `splitOnCharL`. -/
def splitOnCharS (c : Char) (s : String) : List String :=
  (splitOnCharL c s.data).map (fun l => ⟨l⟩)

/-- Models `re.compile(pat, re.IGNORECASE).search(s)` for the pattern fragment the
source uses (literals, `?`, top-level `|`): true iff some branch matches at
some position of `s`. -/
def regexSearchCI (pat s : String) : Bool :=
  let branches := (splitOnCharL '|' pat.data).map reAtoms
  s.data.tails.any (fun t => branches.any (fun b => reMatchAtoms b t))

/-! ### Python dict and `str.join` -/

/-- Python `"sep".join(parts)`. -/
def pyJoin (sep : String) : List String → String
  | [] => ""
  | [s] => s
  | s :: rest => s ++ sep ++ pyJoin sep rest

/-- Python dict assignment `d[k] = v` on an insertion-ordered association
list: an existing key keeps its position and gets the new value, a new key
is appended. -/
def dinsert (m : List (String × α)) (k : String) (v : α) : List (String × α) :=
  if m.any (fun p => p.1 == k) then
    m.map (fun p => if p.1 == k then (k, v) else p)
  else m ++ [(k, v)]

/-! ### `extract_section_content` -/

/-- Apostrophe character, used inside two catalog names. -/
def apos : String := String.singleton (Char.ofNat 39)

/-- The `common_sections` catalog of `extract_section_content`. -/
def common_sections : List String :=
  ["Introduction", "Who" ++ apos ++ "s eligible?", "What you" ++ apos ++ "ll need?",
   "How to get the service?", "Payment / Charges", "Need help?"]

mutual
/-- The element/sibling pair of one node (given the nodes following it in
its parent) and the pairs of its descendants. -/
def pairsSelf : Node → List Node → List (Node × List Node)
  | .text _, _ => []
  | .elem t c a ch, sibs => (.elem t c a ch, sibs.filter Node.isElem) :: pairsAux ch
termination_by structural n _ => n
/-- Every element of the trees in the list paired with its following element
siblings (document pre-order). `find_next_sibling()` returns the next
sibling `Tag`, so repeated calls walk exactly the later element siblings in
order. -/
def pairsAux : List Node → List (Node × List Node)
  | [] => []
  | n :: rest => pairsSelf n rest ++ pairsAux rest
termination_by structural l => l
end

/-- The loop guard of the sibling scan, negated: the `while` in the fallback
pass stops at a sibling whose tag is one of h2..h5 AND whose space-joined
class list contains the substring `heading`. -/
def isStopHeading (n : Node) : Bool :=
  ["h2", "h3", "h4", "h5"].contains n.tagOf &&
    substr "heading" (pyJoin " " n.classesOf)

/-- The sibling `while` loop of the heading-fallback pass: accumulate each
sibling's stripped text (empty or not) until a stop heading is reached. -/
def collectSiblings : List Node → List String
  | [] => []
  | n :: rest => if isStopHeading n then [] else getText n :: collectSiblings rest

/-- The heading-fallback pass joins its fragments with the two-character
separator backslash + n: the source line reads `"\\n".join(content)`, whose
Python value is a backslash followed by the letter n, not a newline. -/
def headingSep : String := "\\n"

/-- Candidate headers of the fallback pass: h2/h3/h4/h5/div elements whose
class matches `heading|title|header`, paired with their following siblings. -/
def headerPairs (soup : Node) : List (Node × List Node) :=
  (pairsAux soup.childrenOf).filter
    (fun p => ["h2", "h3", "h4", "h5", "div"].contains p.1.tagOf &&
      classAnyMatch p.1 ["heading", "title", "header"])

/-- One iteration of the heading-fallback pass. -/
def headingStep (secs : List (String × String)) (p : Node × List Node) :
    List (String × String) :=
  let title := getText p.1
  if title = "" then secs
  else
    let content := collectSiblings p.2
    if content.isEmpty then secs else dinsert secs title (pyJoin headingSep content)

/-- One iteration of the panel pass. The join separator in the source is a
string literal containing a line break, i.e. a newline character. -/
def panelStep (secs : List (String × String)) (panel : Node) :
    List (String × String) :=
  match (elemsUnder panel).find? (fun e => classAnyMatch e ["heading", "title", "header"]) with
  | none => secs
  | some header =>
    let title := getText header
    if title = "" then secs
    else
      match (elemsUnder panel).find? (fun e => classAnyMatch e ["body", "content"]) with
      | none => secs
      | some body =>
        let items := (elemsUnder body).filter
          (fun e => ["p", "li", "div"].contains e.tagOf)
        let content := (items.map getText).filter (fun t => t ≠ "")
        if content.isEmpty then secs else dinsert secs title (pyJoin "\n" content)

mutual
/-- Search one node for the first text node satisfying the predicate; `anc`
is the node's ancestor chain, immediate parent first. -/
def findStrN (p : String → Bool) : Node → List Node → Option (String × List Node)
  | .text s, anc => if p s then some (s, anc) else none
  | .elem t c a ch, anc => findStrL p ch (.elem t c a ch :: anc)
termination_by structural n _ => n
/-- Models `soup.find(string=pattern)` over a list of sibling trees: the
first text node (document order) whose string satisfies the predicate,
together with its ancestor chain, immediate parent first, the root last
(BeautifulSoup `parents` includes the soup). -/
def findStrL (p : String → Bool) : List Node → List Node → Option (String × List Node)
  | [], _ => none
  | n :: rest, anc =>
    match findStrN p n anc with
    | some r => some r
    | none => findStrL p rest anc
termination_by structural l _ => l
end

def findString (p : String → Bool) (soup : Node) : Option (String × List Node) :=
  findStrL p soup.childrenOf [soup]

/-- Content the catalog pass computes for one catalog name: first text node
matching the name (case-insensitive regex), first `div`/`section` ancestor
that has some `li`/`p` descendant, then the stripped texts of that
container's `p`/`li` descendants, dropping empties and exact echoes of the
name; `none` when any of these steps fails or the fragment list is empty. -/
def catalogContent (soup : Node) (name : String) : Option String :=
  match findString (regexSearchCI name) soup with
  | none => none
  | some (_, ancs) =>
    match ancs.find? (fun a => ["div", "section"].contains a.tagOf &&
        !((elemsUnder a).filter (fun e => ["li", "p"].contains e.tagOf)).isEmpty) with
    | none => none
    | some parent =>
      let items := (elemsUnder parent).filter (fun e => ["p", "li"].contains e.tagOf)
      let content := (items.map getText).filter (fun t => t ≠ "" && t ≠ name)
      if content.isEmpty then none else some (pyJoin "\n" content)

/-- One iteration of the catalog pass for one catalog name: record the
computed content under the catalog name (overwriting), or leave the map
unchanged. -/
def catalogStep (soup : Node) (secs : List (String × String)) (name : String) :
    List (String × String) :=
  match catalogContent soup name with
  | none => secs
  | some v => dinsert secs name v

/-- The catalog pass finds nothing to record on this document: every catalog
name either has no matching text node, no qualifying ancestor, or only empty
or echoed fragments. -/
def catalogInert (soup : Node) : Bool :=
  common_sections.all (fun name => (catalogContent soup name).isNone)

/-- The panel elements: every element whose class matches
`panel|section|accordion` (case-sensitive substring of some class). -/
def panelsOf (soup : Node) : List Node :=
  (elemsUnder soup).filter (fun e => classAnyMatch e ["panel", "section", "accordion"])

/-- Passes 1 and 2: panel pass when any panel container exists, otherwise
the heading-fallback pass. -/
def prePass (soup : Node) : List (String × String) :=
  if (panelsOf soup).isEmpty then (headerPairs soup).foldl headingStep []
  else (panelsOf soup).foldl panelStep []

/-- Transcription of `extract_section_content(soup)` from the source: passes 1–2 followed by
the catalog pass, which always runs. -/
def extract_section_content (soup : Node) : List (String × String) :=
  common_sections.foldl (catalogStep soup) (prePass soup)

/-! ### `clean_url_for_sheet_name` -/

/-- Characters that may appear in a URL scheme (`urllib.parse`). -/
def schemeChar (c : Char) : Bool :=
  c.isAlpha || c.isDigit || c == '+' || c == '-' || c == '.'

/-- Drop a leading `scheme:` from the character list when present, as
`urlparse` does: the part before the first `:` counts as a scheme when it is
nonempty, starts with a letter and uses scheme characters only. -/
def dropScheme (u : List Char) : List Char :=
  let pre := u.takeWhile (fun c => c ≠ ':')
  let post := u.dropWhile (fun c => c ≠ ':')
  match post with
  | ':' :: rest =>
    if !pre.isEmpty && (pre.headD 'a').isAlpha && pre.all schemeChar then rest else u
  | _ => u

/-- Models `urlparse(url).netloc` and `urlparse(url).path` for the URL shapes the
scraper feeds in: a netloc is present exactly when the remainder after the
scheme starts with `//`; the path stops at the query or fragment. -/
def urlNetlocPath (url : String) : String × String :=
  let rest := dropScheme url.data
  match rest with
  | '/' :: '/' :: r =>
    let netloc := r.takeWhile (fun c => c ≠ '/' && c ≠ '?' && c ≠ '#')
    let after := r.dropWhile (fun c => c ≠ '/' && c ≠ '?' && c ≠ '#')
    (⟨netloc⟩, ⟨after.takeWhile (fun c => c ≠ '?' && c ≠ '#')⟩)
  | _ => ("", ⟨rest.takeWhile (fun c => c ≠ '?' && c ≠ '#')⟩)

/-- Python `s.strip(c)` for one character. -/
def stripChar (c : Char) (s : String) : String :=
  ⟨((s.data.dropWhile (fun x => x == c)).reverse.dropWhile (fun x => x == c)).reverse⟩

/-- The domain part: `parsed.netloc.split(.)`, second-to-last label when
there are at least two, the single label otherwise. -/
def sheetDomain (url : String) : String :=
  let labels := splitOnCharS '.' (urlNetlocPath url).1
  if labels.length > 1 then labels.getD (labels.length - 2) "" else labels.getD 0 ""

/-- The path part: last segment of the slash-stripped path when non-empty,
else `home`. -/
def sheetSeg (url : String) : String :=
  let segs := splitOnCharS '/' (stripChar '/' (urlNetlocPath url).2)
  let last := segs.getD (segs.length - 1) ""
  if last ≠ "" then last else "home"

/-- Models `re.sub` over the character class of spreadsheet-illegal characters. -/
def sheetSanitize (s : String) : String :=
  ⟨s.data.map (fun c => if ['[', ']', ':', '*', '?', '/', '\\'].contains c then '-' else c)⟩

/-- The final truncation: `sheet_name[:31]` when longer than 31. -/
def truncate31 (s : String) : String :=
  if s.length > 31 then ⟨s.data.take 31⟩ else s

/-- Transcription of `clean_url_for_sheet_name(url)` from the source. -/
def clean_url_for_sheet_name (url : String) : String :=
  truncate31 (sheetSanitize (sheetDomain url ++ "-" ++ sheetSeg url))

/-! ### `scrape_urls`

The fetch layer (`requests.get` + `raise_for_status` + HTML parsing) is an
external collaborator: it is modelled as an oracle returning either the
fetched page (its raw text plus its parsed tree) or an error message. -/

/-- A successfully fetched page: `response.text` and the BeautifulSoup tree. -/
structure Page where
  text : String
  soup : Node

/-- The advanced-options configuration read by `scrape_urls` (defaults as in
the UI): the title selector (a tag-name selector, default `title`) and the
extraction toggles. -/
structure Config where
  title_selector : String := "title"
  extract_meta : Bool := true
  extract_links : Bool := true
  extract_images : Bool := true
  extract_sections : Bool := true

/-- The per-URL `data` dict of `scrape_urls`: a key is present in the dict
exactly when the corresponding field is `some` (or non-empty, for the
flattened section columns). -/
structure Record where
  url : String
  title : Option String := none
  h1Count : Option Nat := none
  links : Option Nat := none
  images : Option Nat := none
  metaKeywords : Option String := none
  metaDescription : Option String := none
  sectionCols : List (String × String) := []
  allSections : Option (List (String × String)) := none
  requiredDocuments : Option String := none
  eligibilityCriteria : Option String := none
  onlineRegistration : Option String := none
  fee : Option String := none
  status : Option String := none
deriving Repr, DecidableEq

/-- Models `len(soup.find_all(tag))`. -/
def countTag (soup : Node) (t : String) : Nat :=
  ((elemsUnder soup).filter (fun e => e.tagOf == t)).length

/-- Models `soup.select_one(selector)` for a plain tag-name selector. -/
def selectOne (soup : Node) (t : String) : Option Node :=
  (elemsUnder soup).find? (fun e => e.tagOf == t)

/-- Models `soup.find(meta, attrs=...)` by the `name` attribute. -/
def findMeta (soup : Node) (nm : String) : Option Node :=
  (elemsUnder soup).find? (fun e => e.tagOf == "meta" && e.attrOf "name" == some nm)

/-- The required-documents keyword list. -/
def docKeywords : List String := ["copy", "document", "certificate", "id", "passport"]

/-- The required-documents loop: every `li` whose lowered stripped text
contains some keyword as a raw substring. -/
def requiredDocsList (soup : Node) : List String :=
  (((elemsUnder soup).filter (fun e => e.tagOf == "li")).map getText).filter
    (fun t => docKeywords.any (fun k => substr k (pyLower t)))

def requiredDocumentsField (soup : Node) : Option String :=
  let l := requiredDocsList soup
  if l.isEmpty then none else some (pyJoin "\n" l)

/-- The eligibility loop: first text node matching the eligibility pattern,
first `div`/`section` ancestor (no qualifying-content requirement), its `li`
descendants' stripped texts. -/
def eligibilityList (soup : Node) : List String :=
  match findString (regexSearchCI ("Who" ++ apos ++ "s eligible?")) soup with
  | none => []
  | some (_, ancs) =>
    match ancs.find? (fun a => ["div", "section"].contains a.tagOf) with
    | none => []
    | some parent => ((elemsUnder parent).filter (fun e => e.tagOf == "li")).map getText

def eligibilityField (soup : Node) : Option String :=
  let l := eligibilityList soup
  if l.isEmpty then none else some (pyJoin "\n" l)

/-- Python regex `\s`, over the ASCII range the pages use. -/
def isPySpace (c : Char) : Bool :=
  [' ', '\t', '\n', '\r', Char.ofNat 11, Char.ofNat 12].contains c

/-- Try `re.search(r'RM\s*(\d+(?:\.\d+)?)', _)` anchored at the head of the
list; returns the captured number group. -/
def rmTryHere : List Char → Option String
  | 'R' :: 'M' :: rest =>
    let rest2 := rest.dropWhile isPySpace
    let ds := rest2.takeWhile Char.isDigit
    if ds.isEmpty then none
    else
      match rest2.drop ds.length with
      | '.' :: r3 =>
        let fs := r3.takeWhile Char.isDigit
        if fs.isEmpty then some ⟨ds⟩ else some ⟨ds ++ '.' :: fs⟩
      | _ => some ⟨ds⟩
  | _ => none

/-- The unanchored `re.search` for the fee amount: first position where the
`RM` pattern matches. -/
def rmSearch : List Char → Option String
  | [] => none
  | c :: rest =>
    match rmTryHere (c :: rest) with
    | some r => some r
    | none => rmSearch rest

/-- The fee block of `scrape_urls`: first text node matching
`Payment|Charges|Fee` (case-insensitive), first `div`/`section` ancestor,
then Free / `RM <number>` / raw text, in that priority. -/
def feeField (soup : Node) : Option String :=
  match findString (regexSearchCI "Payment|Charges|Fee") soup with
  | none => none
  | some (_, ancs) =>
    match ancs.find? (fun a => ["div", "section"].contains a.tagOf) with
    | none => none
    | some parent =>
      let feeText := getText parent
      if substr "free" (pyLower feeText) || substr "no charge" (pyLower feeText) then
        some "Free"
      else
        match rmSearch feeText.data with
        | some n => some ("RM " ++ n)
        | none => some feeText

def online_indicators : List String :=
  ["register online", "available online", "online service", "apply online"]

/-- The online-registration scan over the raw `response.text`. -/
def onlineRegistrationField (pageText : String) : String :=
  if online_indicators.any (fun s => substr s (pyLower pageText)) then "Yes" else "No"

/-- The success branch of the `scrape_urls` loop body. -/
def buildRecord (cfg : Config) (url : String) (page : Page) : Record :=
  let soup := page.soup
  { url := url
    title := some (match selectOne soup cfg.title_selector with
      | some e => getText e
      | none => "")
    h1Count := some (countTag soup "h1")
    links := if cfg.extract_links then some (countTag soup "a") else none
    images := if cfg.extract_images then some (countTag soup "img") else none
    metaKeywords := if cfg.extract_meta then
        (findMeta soup "keywords").map (fun e => (e.attrOf "content").getD "")
      else none
    metaDescription := if cfg.extract_meta then
        (findMeta soup "description").map (fun e => (e.attrOf "content").getD "")
      else none
    sectionCols := if cfg.extract_sections then
        (extract_section_content soup).map (fun p => ("Section: " ++ p.1, p.2))
      else []
    allSections := if cfg.extract_sections then some (extract_section_content soup) else none
    requiredDocuments := requiredDocumentsField soup
    eligibilityCriteria := eligibilityField soup
    onlineRegistration := some (onlineRegistrationField page.text)
    fee := feeField soup
    status := some "completed" }

/-- Scheme normalization applied before fetching. -/
def normalizeUrl (u : String) : String :=
  if "http://".data.isPrefixOf u.data || "https://".data.isPrefixOf u.data then u
  else "https://" ++ u

/-- The `except` branch of the `scrape_urls` loop: only the URL, an empty
title, and the error status are present. -/
def errorRecord (url msg : String) : Record :=
  { url := url, title := some "", status := some ("Error: " ++ msg) }

/-- The whole loop body of `scrape_urls` for one URL. -/
def processUrl (cfg : Config) (fetch : String → Except String Page) (u : String) : Record :=
  let url := normalizeUrl u
  match fetch url with
  | .error e => errorRecord url e
  | .ok page => buildRecord cfg url page

/-- Transcription of `scrape_urls(urls)`: returns `all_data` (records in input order) and
`url_data_map` (keyed by the normalized URL). -/
def scrape_urls (cfg : Config) (fetch : String → Except String Page)
    (urls : List String) : List Record × List (String × Record) :=
  urls.foldl (fun st u =>
    let r := processUrl cfg fetch u
    (st.1 ++ [r], dinsert st.2 (normalizeUrl u) r)) ([], [])

/-- The `Start Scraping` trigger loop: for each index from `current_index`,
the session state `scraped_data, url_data_map` is ASSIGNED the result of
`scrape_urls([urls[i]])`, so every iteration replaces the previous state
instead of extending it. -/
def trigger_scraping_run (cfg : Config) (fetch : String → Except String Page)
    (current_index : Nat) (urls : List String) :
    List Record × List (String × Record) :=
  (urls.drop current_index).foldl (fun _ u => scrape_urls cfg fetch [u]) ([], [])

/-! ### Concrete documents used as test inputs and counterexamples -/

/-- A document root (`[document]` in BeautifulSoup). -/
def rootDoc (ch : List Node) : Node := .elem "[document]" [] [] ch

def divC (cls : List String) (ch : List Node) : Node := .elem "div" cls [] ch

def pTag (s : String) : Node := .elem "p" [] [] [.text s]

def liTag (s : String) : Node := .elem "li" [] [] [.text s]

/-- A heading-classed div with title `T` followed by one contentless sibling. -/
def docHeadingEmpty : Node := rootDoc [divC ["heading"] [.text "T"], divC [] []]

/-- A heading-classed div, then a paragraph, then a plain `h2` (no class),
then another paragraph. -/
def docHeadingH2 : Node :=
  rootDoc [divC ["heading"] [.text "T1"], pTag "A", .elem "h2" [] [] [.text "T2"], pTag "B"]

/-- A catalog container with the text `Introduction` and `<li>Y</li>`, then a
heading-classed div titled `Introduction` whose sibling paragraph is `X`. -/
def docCatalogOverwrite : Node :=
  rootDoc [divC [] [pTag "Introduction", liTag "Y"],
    divC ["heading"] [.text "Introduction"], pTag "X"]

/-- A panel with a heading-classed header `Fees` and a body-classed body
holding two paragraphs. -/
def docPanelFees : Node :=
  rootDoc [divC ["panel"]
    [divC ["panel-heading"] [.text "Fees"], divC ["panel-body"] [pTag "RM 10", pTag "RM 20"]]]

/-- A heading-classed div with two paragraph siblings `A` and `B`. -/
def docHeadingJoin : Node := rootDoc [divC ["heading"] [.text "T"], pTag "A", pTag "B"]

/-- A classless div with the text `Introduction` and one list item: no panel
containers and no matching headings anywhere. -/
def docNoClasses : Node := rootDoc [divC [] [pTag "Introduction", liTag "stuff"]]

/-- A catalog container whose list holds two items. -/
def docCatalogTwo : Node := rootDoc [divC [] [pTag "Introduction", liTag "Y1", liTag "Y2"]]

/-- A document with no matching markup and no catalog text at all. -/
def docPlain : Node := rootDoc [pTag "hello"]

/-- The catalog name containing the regex metacharacter `?`. -/
def whosEligible : String := "Who" ++ apos ++ "s eligible?"

/-- The literal text `Who`, apostrophe, `s eligibl` — the catalog name minus
its final `e?`. -/
def eligiblText : String := "Who" ++ apos ++ "s eligibl"

/-- A div holding a text node `Who's eligibl` and one list item. -/
def docEligibl : Node := rootDoc [divC [] [pTag eligiblText, liTag "E1"]]

/-- A list item whose text contains `id` only inside the word `provide`. -/
def provideItem : String := "Please provide two photos"

def docProvide : Node := rootDoc [divC [] [liTag provideItem]]

/-- The default configuration of the advanced-options panel. -/
def cfgDefault : Config := {}

/-- A fetch oracle that succeeds on `https://a.example` with an empty page
and fails with a timeout message everywhere else. -/
def fetchC1 : String → Except String Page := fun u =>
  if u == "https://a.example" then .ok { text := "", soup := rootDoc [] }
  else .error "timeout"

/-- A fetch oracle that always fails. -/
def fetchFail : String → Except String Page := fun _ => .error "timeout"

/-! ### Helper lemmas -/

theorem foldl_invariant {α β : Type} (P : β → Prop) (f : β → α → β) :
    ∀ (l : List α) (init : β), P init →
      (∀ b a, a ∈ l → P b → P (f b a)) → P (l.foldl f init) := by
  intro l
  induction l with
  | nil => intro init h _; exact h
  | cons a t ih =>
    intro init h hstep
    exact ih (f init a) (hstep init a (List.mem_cons_self a t) h)
      (fun b x hx hb => hstep b x (List.mem_cons_of_mem a hx) hb)

theorem mem_dinsert {α : Type} {m : List (String × α)} {k : String} {v : α}
    {kv : String × α} (h : kv ∈ dinsert m k v) : kv ∈ m ∨ kv = (k, v) := by
  unfold dinsert at h
  split at h
  · obtain ⟨p, hp, he⟩ := List.mem_map.mp h
    by_cases hk : p.1 == k
    · right; simp [hk] at he; exact he.symm
    · left; simp [hk] at he; exact he ▸ hp
  · rcases List.mem_append.mp h with h1 | h2
    · exact Or.inl h1
    · right; simpa using h2

theorem str_append_ne_empty_left {s : String} (t : String) (h : s ≠ "") :
    s ++ t ≠ "" := by
  intro he
  apply h
  have hd : (s ++ t).data = [] := congrArg String.data he
  rw [String.data_append] at hd
  have : s.data = [] := (List.append_eq_nil.mp hd).1
  cases s
  simp_all

theorem pyJoin_ne_empty (sep : String) {l : List String} (hne : l ≠ [])
    (hall : ∀ x ∈ l, x ≠ "") : pyJoin sep l ≠ "" := by
  match l with
  | [] => exact absurd rfl hne
  | [s] => exact hall s (List.mem_singleton.mpr rfl)
  | s :: t :: ts =>
    show s ++ sep ++ pyJoin sep (t :: ts) ≠ ""
    exact str_append_ne_empty_left _
      (str_append_ne_empty_left _ (hall s (List.mem_cons_self ..)))

/-- The `all_data` list of `scrape_urls` is the per-URL results in input order: each
record is a function of its own URL alone. -/
theorem scrape_urls_records (cfg : Config) (fetch : String → Except String Page) :
    ∀ urls : List String, (scrape_urls cfg fetch urls).1 = urls.map (processUrl cfg fetch) := by
  have key : ∀ (urls : List String) (st : List Record × List (String × Record)),
      (urls.foldl (fun st u =>
        let r := processUrl cfg fetch u
        (st.1 ++ [r], dinsert st.2 (normalizeUrl u) r)) st).1
        = st.1 ++ urls.map (processUrl cfg fetch) := by
    intro urls
    induction urls with
    | nil => intro st; simp
    | cons u t ih => intro st; simp [ih, List.append_assoc]
  intro urls
  simpa using key urls ([], [])

theorem truncate31_length (s : String) : (truncate31 s).length ≤ 31 := by
  unfold truncate31
  split
  · show (String.mk (s.data.take 31)).length ≤ 31
    have : (String.mk (s.data.take 31)).length = (s.data.take 31).length := rfl
    rw [this, List.length_take]
    exact Nat.min_le_left 31 _
  · omega

/-- Overwrite semantics of the dict assignment: looking up the assigned key
afterwards yields the assigned value, whether or not the key was present. -/
theorem dinsert_lookup {α : Type} (k : String) (v : α) :
    ∀ m : List (String × α), (dinsert m k v).lookup k = some v := by
  intro m
  induction m with
  | nil => simp [dinsert, List.lookup]
  | cons p t ih =>
    by_cases hk : p.1 = k
    · have hb : (p.1 == k) = true := by simpa using hk
      simp [dinsert, List.any_cons, hb, hk, List.lookup]
    · have hb : (p.1 == k) = false := by simpa using hk
      have hb2 : (k == p.1) = false := by simpa using (Ne.symm hk)
      cases hany : t.any (fun q => q.1 == k) with
      | true =>
        have ih' := ih
        simp only [dinsert, hany, if_true] at ih'
        simp [dinsert, List.any_cons, hb, hk, hany, List.lookup, hb2]
        simpa using ih'
      | false =>
        have ih' := ih
        simp only [dinsert, hany, Bool.false_eq_true, if_false] at ih'
        simp [dinsert, List.any_cons, hb, hk, hany, List.lookup, hb2, ih']

theorem headingStep_names {secs : List (String × String)} {p : Node × List Node}
    (h : ∀ kv ∈ secs, kv.1 ≠ "") : ∀ kv ∈ headingStep secs p, kv.1 ≠ "" := by
  intro kv hkv
  simp only [headingStep] at hkv
  split at hkv
  · exact h kv hkv
  · rename_i ht
    split at hkv
    · exact h kv hkv
    · rcases mem_dinsert hkv with hm | he
      · exact h kv hm
      · rw [he]; exact ht

theorem panelStep_names {secs : List (String × String)} {panel : Node}
    (h : ∀ kv ∈ secs, kv.1 ≠ "") : ∀ kv ∈ panelStep secs panel, kv.1 ≠ "" := by
  intro kv hkv
  simp only [panelStep] at hkv
  split at hkv
  · exact h kv hkv
  · split at hkv
    · exact h kv hkv
    · rename_i ht
      split at hkv
      · exact h kv hkv
      · split at hkv
        · exact h kv hkv
        · rcases mem_dinsert hkv with hm | he
          · exact h kv hm
          · rw [he]; exact ht

theorem panelStep_contents {secs : List (String × String)} {panel : Node}
    (h : ∀ kv ∈ secs, kv.2 ≠ "") : ∀ kv ∈ panelStep secs panel, kv.2 ≠ "" := by
  intro kv hkv
  simp only [panelStep] at hkv
  split at hkv
  · exact h kv hkv
  · split at hkv
    · exact h kv hkv
    · split at hkv
      · exact h kv hkv
      · split at hkv
        · exact h kv hkv
        · rename_i hne
          rcases mem_dinsert hkv with hm | he
          · exact h kv hm
          · rw [he]
            apply pyJoin_ne_empty
            · intro hc
              exact hne (List.isEmpty_iff.mpr hc)
            · intro x hx
              exact of_decide_eq_true (List.mem_filter.mp hx).2

theorem catalogContent_ne_empty {soup : Node} {name v : String}
    (h : catalogContent soup name = some v) : v ≠ "" := by
  simp only [catalogContent] at h
  split at h
  · exact absurd h (by simp)
  · split at h
    · exact absurd h (by simp)
    · split at h
      · exact absurd h (by simp)
      · rename_i hne
        have hv := Option.some.inj h
        rw [← hv]
        apply pyJoin_ne_empty
        · intro hc
          exact hne (List.isEmpty_iff.mpr hc)
        · intro x hx
          have hx2 := (List.mem_filter.mp hx).2
          have := (Bool.and_eq_true _ _).mp hx2
          exact of_decide_eq_true this.1

theorem catalogStep_names {soup : Node} {secs : List (String × String)} {name : String}
    (hname : name ≠ "") (h : ∀ kv ∈ secs, kv.1 ≠ "") :
    ∀ kv ∈ catalogStep soup secs name, kv.1 ≠ "" := by
  intro kv hkv
  unfold catalogStep at hkv
  split at hkv
  · exact h kv hkv
  · rcases mem_dinsert hkv with hm | he
    · exact h kv hm
    · rw [he]; exact hname

theorem catalogStep_contents {soup : Node} {secs : List (String × String)} {name : String}
    (h : ∀ kv ∈ secs, kv.2 ≠ "") :
    ∀ kv ∈ catalogStep soup secs name, kv.2 ≠ "" := by
  intro kv hkv
  unfold catalogStep at hkv
  split at hkv
  · exact h kv hkv
  · rename_i v hv
    rcases mem_dinsert hkv with hm | he
    · exact h kv hm
    · rw [he]; exact catalogContent_ne_empty hv

theorem common_sections_ne_empty : ∀ name ∈ common_sections, name ≠ "" := by decide

theorem prePass_names (soup : Node) : ∀ kv ∈ prePass soup, kv.1 ≠ "" := by
  unfold prePass
  split
  · exact foldl_invariant (fun m => ∀ kv ∈ m, kv.1 ≠ "") headingStep (headerPairs soup) []
      (by intro kv h; simp at h) (fun b a _ hb => headingStep_names hb)
  · exact foldl_invariant (fun m => ∀ kv ∈ m, kv.1 ≠ "") panelStep (panelsOf soup) []
      (by intro kv h; simp at h) (fun b a _ hb => panelStep_names hb)

/-! ### Claim theorems -/

/-- C1: `scrape_urls` itself yields exactly one Record per input URL, in
input order, with a fetch-failed Record kept in place; but the `Start
Scraping` trigger loop reassigns the session state to `scrape_urls([url])`
on every iteration, so a two-URL run ends with a single Record — the code
contradicts the one-Record-per-input-URL invariant it is built around. -/
theorem scraper_c1_trigger_loop_loses_records :
    (trigger_scraping_run cfgDefault fetchC1 0 ["a.example", "b.example"]).1.length = 1 ∧
    (scrape_urls cfgDefault fetchC1 ["a.example", "b.example"]).1.length = 2 ∧
    (scrape_urls cfgDefault fetchC1 ["a.example", "b.example"]).1 =
      [processUrl cfgDefault fetchC1 "a.example", processUrl cfgDefault fetchC1 "b.example"] ∧
    processUrl cfgDefault fetchC1 "b.example" = errorRecord "https://b.example" "timeout" := by
  refine ⟨by decide, by decide, ?_, by decide⟩
  exact scrape_urls_records cfgDefault fetchC1 ["a.example", "b.example"]

/-- C2 (counterexample): a heading-classed div followed by one contentless
sibling produces a SectionMap entry whose content is empty, because the
fallback pass accumulates sibling texts without filtering empties. -/
theorem scraper_c2_empty_content_counterexample :
    extract_section_content docHeadingEmpty = [("T", "")] ∧
    ((extract_section_content docHeadingEmpty).all (fun kv => !(kv.2 == ""))) = false := by
  exact ⟨by decide, by decide⟩

/-- C2 (amended): the SectionMap never contains an empty-name entry, and
whenever the document has at least one panel container (so the
heading-fallback pass does not run) it contains no empty-content entry
either; only the heading-fallback pass can record empty content. -/
theorem scraper_c2_entry_nonempty_invariant (soup : Node) :
    ((extract_section_content soup).all (fun kv => !(kv.1 == ""))) = true ∧
    ((panelsOf soup).isEmpty = false →
      ((extract_section_content soup).all (fun kv => !(kv.2 == ""))) = true) := by
  constructor
  · rw [List.all_eq_true]
    intro kv hkv
    have hnames : ∀ kv ∈ common_sections.foldl (catalogStep soup) (prePass soup), kv.1 ≠ "" :=
      foldl_invariant (fun m : List (String × String) => ∀ kv ∈ m, kv.1 ≠ "") (catalogStep soup)
        common_sections (prePass soup) (prePass_names soup)
        (fun b name hn hb => catalogStep_names (common_sections_ne_empty name hn) hb)
    simpa using hnames kv hkv
  · intro hp
    rw [List.all_eq_true]
    intro kv hkv
    have hinit : ∀ kv ∈ prePass soup, kv.2 ≠ "" := by
      unfold prePass
      rw [hp]
      simp only [Bool.false_eq_true, if_false]
      exact foldl_invariant (fun m : List (String × String) => ∀ kv ∈ m, kv.2 ≠ "") panelStep
        (panelsOf soup) [] (by intro kv h; simp at h) (fun b a _ hb => panelStep_contents hb)
    have hcont : ∀ kv ∈ common_sections.foldl (catalogStep soup) (prePass soup), kv.2 ≠ "" :=
      foldl_invariant (fun m : List (String × String) => ∀ kv ∈ m, kv.2 ≠ "") (catalogStep soup)
        common_sections (prePass soup) hinit
        (fun b name hn hb => catalogStep_contents hb)
    simpa using hcont kv hkv

/-- C2 (witness): the panel document instantiates the amended invariant. -/
theorem scraper_c2_entry_nonempty_invariant_witness :
    (panelsOf docPanelFees).isEmpty = false ∧
    ((extract_section_content docPanelFees).all (fun kv => !(kv.2 == ""))) = true :=
  ⟨by decide, (scraper_c2_entry_nonempty_invariant docPanelFees).2 (by decide)⟩

/-- C3 (counterexample): a plain `h2` sibling (heading tag, no `heading`
class) does not stop the sibling scan — its text `T2` is accumulated into
the preceding section's content. -/
theorem scraper_c3_heading_tag_counterexample :
    isStopHeading (Node.elem "h2" [] [] [Node.text "T2"]) = false ∧
    collectSiblings [pTag "A", Node.elem "h2" [] [] [Node.text "T2"], pTag "B"]
      = ["A", "T2", "B"] ∧
    extract_section_content docHeadingH2 = [("T1", "A" ++ headingSep ++ "T2" ++ headingSep ++ "B")] := by
  exact ⟨by decide, by decide, by decide⟩

/-- C3 (amended): the sibling scan stops exactly at the first following
sibling whose tag is one of h2/h3/h4/h5 AND whose class list contains
`heading`; every earlier sibling's text is accumulated. -/
theorem scraper_c3_sibling_scan_stop : ∀ sibs : List Node,
    collectSiblings sibs = (sibs.takeWhile (fun n => !isStopHeading n)).map getText := by
  intro sibs
  induction sibs with
  | nil => rfl
  | cons n rest ih =>
    simp only [collectSiblings, List.takeWhile_cons]
    cases h : isStopHeading n with
    | true => simp [h]
    | false => simp [h, ih]

/-- C4: the catalog pass runs unconditionally after passes 1–2, and whenever
it computes content for a catalog name the final map holds the catalog
value for that name; on the concrete overwrite document the heading-pass
entry `Introduction = X` is replaced by the catalog value `Y`. -/
theorem scraper_c4_catalog_overwrite :
    (∀ soup : Node, extract_section_content soup =
      common_sections.foldl (catalogStep soup) (prePass soup)) ∧
    (∀ (soup : Node) (secs : List (String × String)) (name v : String),
      catalogContent soup name = some v →
      (catalogStep soup secs name).lookup name = some v) ∧
    prePass docCatalogOverwrite = [("Introduction", "X")] ∧
    catalogContent docCatalogOverwrite "Introduction" = some "Y" ∧
    extract_section_content docCatalogOverwrite = [("Introduction", "Y")] := by
  refine ⟨fun _ => rfl, ?_, by decide, by decide, by decide⟩
  intro soup secs name v h
  unfold catalogStep
  rw [h]
  exact dinsert_lookup name v secs

/-- C4 (witness): the overwrite lemma applied to the concrete document. -/
theorem scraper_c4_catalog_overwrite_witness :
    (catalogStep docCatalogOverwrite (prePass docCatalogOverwrite) "Introduction").lookup
      "Introduction" = some "Y" :=
  scraper_c4_catalog_overwrite.2.1 docCatalogOverwrite (prePass docCatalogOverwrite)
    "Introduction" "Y" (by decide)

/-- C5 (counterexample): in the heading-fallback pass two fragments `A` and
`B` are joined with the literal two-character sequence backslash-n, which is
not the newline join the claim states. -/
theorem scraper_c5_newline_counterexample :
    extract_section_content docHeadingJoin = [("T", "A\\nB")] ∧
    ("A\\nB" : String) ≠ "A\nB" := by
  exact ⟨by decide, by decide⟩

/-- C5 (amended): the panel and catalog passes join their fragments with the
newline character, while the heading-fallback pass joins them with the
two-character separator backslash + n. -/
theorem scraper_c5_join_separators :
    extract_section_content docPanelFees = [("Fees", "RM 10\nRM 20")] ∧
    extract_section_content docCatalogTwo = [("Introduction", "Y1\nY2")] ∧
    extract_section_content docHeadingJoin = [("T", "A" ++ headingSep ++ "B")] ∧
    headingSep = "\\n" ∧ headingSep ≠ "\n" := by
  exact ⟨by decide, by decide, by decide, rfl, by decide⟩

/-- C6 (counterexample): a document with no panel-classed element and no
matching heading still yields a non-empty map, because the catalog pass
fires on the bare text `Introduction`. -/
theorem scraper_c6_catalog_counterexample :
    (panelsOf docNoClasses).isEmpty = true ∧
    (headerPairs docNoClasses).isEmpty = true ∧
    extract_section_content docNoClasses = [("Introduction", "stuff")] ∧
    extract_section_content docNoClasses ≠ [] := by
  exact ⟨by decide, by decide, by decide, by decide⟩

/-- C6 (amended): when additionally the catalog pass finds nothing to
record, `extract_section_content` returns the empty map. -/
theorem scraper_c6_empty_map (soup : Node)
    (hp : (panelsOf soup).isEmpty = true) (hh : (headerPairs soup).isEmpty = true)
    (hc : catalogInert soup = true) : extract_section_content soup = [] := by
  have hpre : prePass soup = [] := by
    unfold prePass
    rw [hp]
    simp only [if_true]
    rw [List.isEmpty_iff.mp hh]
    rfl
  have hnone : ∀ name ∈ common_sections, catalogContent soup name = none := by
    intro name hn
    have := List.all_eq_true.mp hc name hn
    simpa [Option.isNone_iff_eq_none] using this
  unfold extract_section_content
  rw [hpre]
  exact foldl_invariant (fun m => m = []) (catalogStep soup) common_sections [] rfl
    (fun b name hn hb => by rw [hb]; unfold catalogStep; rw [hnone name hn])

/-- C6 (witness): a plain document with no matching markup and no catalog
text gets the empty map. -/
theorem scraper_c6_empty_map_witness :
    ((panelsOf docPlain).isEmpty = true ∧ (headerPairs docPlain).isEmpty = true ∧
      catalogInert docPlain = true) ∧
    extract_section_content docPlain = [] :=
  ⟨⟨by decide, by decide, by decide⟩,
   scraper_c6_empty_map docPlain (by decide) (by decide) (by decide)⟩

/-- C7: the sheet name is a pure function of the URL of the stated shape —
domain and last path segment (or `home`) joined by `-`, illegal spreadsheet
characters replaced by `-`, truncated to at most 31 characters. -/
theorem scraper_c7_sheet_name (url : String) :
    (clean_url_for_sheet_name url).length ≤ 31 ∧
    clean_url_for_sheet_name url =
      truncate31 (sheetSanitize (sheetDomain url ++ "-" ++ sheetSeg url)) ∧
    ((urlNetlocPath url).2 = "" →
      clean_url_for_sheet_name url = truncate31 (sheetSanitize (sheetDomain url ++ "-home"))) := by
  refine ⟨truncate31_length _, rfl, ?_⟩
  intro h
  have hseg : sheetSeg url = "home" := by
    unfold sheetSeg
    rw [h]
    rfl
  have hlit : ("-" : String) ++ "home" = "-home" := rfl
  unfold clean_url_for_sheet_name
  rw [hseg, String.append_assoc, hlit]

/-- C7 (witness): a URL with no path yields `domain-home`, within bound. -/
theorem scraper_c7_sheet_name_witness :
    (clean_url_for_sheet_name "https://example.gov").length ≤ 31 ∧
    clean_url_for_sheet_name "https://example.gov" =
      truncate31 (sheetSanitize (sheetDomain "https://example.gov" ++ "-home")) :=
  ⟨(scraper_c7_sheet_name "https://example.gov").1,
   (scraper_c7_sheet_name "https://example.gov").2.2 (by decide)⟩

/-- C8: a fetch error yields a Record holding exactly the normalized URL, an
empty title and the error status — every other field absent — and the
record list of `scrape_urls` is a per-URL map, so one URL's failure cannot
affect another URL's Record. -/
theorem scraper_c8_fetch_error :
    (∀ (cfg : Config) (fetch : String → Except String Page) (u msg : String),
      fetch (normalizeUrl u) = Except.error msg →
      processUrl cfg fetch u =
        { url := normalizeUrl u, title := some "", h1Count := none, links := none,
          images := none, metaKeywords := none, metaDescription := none,
          sectionCols := [], allSections := none, requiredDocuments := none,
          eligibilityCriteria := none, onlineRegistration := none, fee := none,
          status := some ("Error: " ++ msg) }) ∧
    (∀ (cfg : Config) (fetch : String → Except String Page) (urls : List String),
      (scrape_urls cfg fetch urls).1 = urls.map (processUrl cfg fetch)) := by
  constructor
  · intro cfg fetch u msg h
    simp only [processUrl]
    rw [h]
    rfl
  · intro cfg fetch urls
    exact scrape_urls_records cfg fetch urls

/-- C8 (witness): a concrete always-failing fetch produces the bare error
Record. -/
theorem scraper_c8_fetch_error_witness :
    processUrl cfgDefault fetchFail "bad.example" =
      { url := "https://bad.example", title := some "", h1Count := none, links := none,
        images := none, metaKeywords := none, metaDescription := none,
        sectionCols := [], allSections := none, requiredDocuments := none,
        eligibilityCriteria := none, onlineRegistration := none, fee := none,
        status := some "Error: timeout" } :=
  scraper_c8_fetch_error.1 cfgDefault fetchFail "bad.example" "timeout" rfl

/-- C9: catalog and eligibility search strings are compiled as regexes, so
the pattern `Who's eligible?` (optional final `e`) matches the text
`Who's eligibl`, which does not contain the literal pattern; both the
catalog pass and the eligibility extractor fire on such a document. -/
theorem scraper_c9_regex_matching :
    regexSearchCI whosEligible eligiblText = true ∧
    substr whosEligible eligiblText = false ∧
    eligibilityField docEligibl = some "E1" ∧
    (extract_section_content docEligibl).lookup whosEligible
      = some (eligiblText ++ "\nE1") := by
  exact ⟨by decide, by decide, by decide, by decide⟩

/-- C10: required-documents matching is raw substring containment, so the
item `Please provide two photos` — which contains no document keyword as a
whitespace-delimited word, only `id` inside `provide` — is still included. -/
theorem scraper_c10_keyword_substring :
    substr "id" (pyLower provideItem) = true ∧
    ((splitOnCharS ' ' (pyLower provideItem)).all (fun w => !(docKeywords.contains w))) = true ∧
    requiredDocumentsField docProvide = some provideItem := by
  exact ⟨by decide, by decide, by decide⟩

end Scraper
